import Mathlib

/-!
# Verification of the unsoundness-checker rule engine

A shallow embedding of the core of the `unsoundness_checker` crate
(rule catalog, rule selection, guarded diagnostic emission, and the
rule algorithms), together with theorems settling the frozen claims.

Strings are modelled as `List Char`.  The external semantic model
(`ty_python_semantic`) is kept abstract: the checker definitions are
parametrised by a `SemOps` record holding the typed queries the code
consumes (`is_assignable_to`, `promote_literals`, `tuple_instance_spec`,
`overloads_and_implementation`, ...).  AST nodes carry their inferred
type (the model's answer for that node) and an opaque source range id.
-/

namespace UC

/-- Source range of a syntax node, abstracted to an opaque identifier. -/
abbrev Rng := Nat

/-- Strings of the embedded program (`List Char` keeps everything
kernel-computable). -/
abbrev LCStr := List Char

/-- `s.starts_with p` on the `List Char` model of strings. -/
def lStartsWith : LCStr → LCStr → Bool
  | _, [] => true
  | [], _ :: _ => false
  | c :: cs, p :: ps => c = p && lStartsWith cs ps

/-- ASCII whitespace test, modelling `char::is_whitespace` on the
characters that occur in the program's inputs. -/
def isWS (c : Char) : Bool :=
  c = ' ' || c = '\t' || c = '\n' || c = '\r' || c = '\x0b' || c = '\x0c'

/-- `str::trim`: drop leading and trailing whitespace. -/
def lTrim (s : LCStr) : LCStr :=
  ((s.dropWhile isWS).reverse.dropWhile isWS).reverse

/-- `str::find(pat)`: byte index of the first occurrence of `pat`
(here: character index; the inputs considered are ASCII). -/
def strFind : LCStr → LCStr → Option Nat
  | hay, pat =>
    if lStartsWith hay pat then some 0
    else
      match hay with
      | [] => none
      | _ :: rest => (strFind rest pat).map (· + 1)

/-- Assoc-list lookup keyed by embedded strings (models the hash-map
lookups of the source; only presence and the bound value matter). -/
def lookupAssoc {β : Type} : List (LCStr × β) → LCStr → Option β
  | [], _ => none
  | (k, v) :: rest, key => if k = key then some v else lookupAssoc rest key

/-! ## The external type universe

Mirrors the `ty_python_semantic::types::Type` variants the checker
pattern-matches on.  Structured payloads the checker only passes back
to the semantic model are abstracted to opaque identifiers. -/

/-- The semantic model's `Type` as seen by the checker. -/
inductive Ty where
  /-- `Type::Dynamic(DynamicType::Any)` -/
  | dynamicAny
  /-- other `Type::Dynamic(_)` variants (`Unknown`, `Todo`, ...) -/
  | dynamicOther (id : Nat)
  /-- `Type::FunctionLiteral(_)` -/
  | functionLiteral (id : Nat)
  /-- `Type::Callable(_)` -/
  | callableT (id : Nat)
  /-- `Type::TypeIs(_)` -/
  | typeIsT (id : Nat)
  /-- `Type::TypeVar(_)` -/
  | typeVarT (id : Nat)
  /-- `Type::NominalInstance(_)` -/
  | nominalInstance (id : Nat)
  /-- the `None` type -/
  | noneT
  | intT
  | strT
  | litInt (n : Nat)
  /-- a tuple instance type, abstracted -/
  | tupleT (id : Nat)
  | otherT (id : Nat)
deriving DecidableEq, Repr

/-- A declared overload: its decorator list (range and inferred type of
each decorator expression) and the signature's return type
(`Signature::return_ty`, `None` when the overload has no return
annot). -/
structure Overload where
  decorators : List (Rng × Ty)
  returnTy : Option Ty
deriving DecidableEq, Repr

/-- An implementation signature: `parameter_annotated_types()` and
`parameter_default_types()`. -/
structure ImplSig where
  annotatedTys : List (Option Ty)
  defaultTys : List (Option Ty)
deriving DecidableEq, Repr

/-- The typed queries the checker consumes from the semantic model
(read-only, immutable for a run). -/
structure SemOps where
  isAssignableTo : Ty → Ty → Bool
  promoteLiterals : Ty → Ty
  /-- `Type::is_none(db)` -/
  isNoneTy : Ty → Bool
  /-- `tuple_instance_spec` followed by collecting `fixed_elements()` -/
  tupleInstanceSpec : Ty → Option (List Ty)
  /-- folding a `UnionBuilder` over the listed types and building -/
  unionAll : List Ty → Ty
  /-- `Type::display(db)` -/
  displayTy : Ty → LCStr
  /-- `TypeVarInstance::upper_bound(db)` for the type variable id -/
  typevarUpperBound : Nat → Option Ty
  /-- `FunctionType::is_known(db, KnownFunction::Overload)` -/
  isKnownOverload : Nat → Bool
  /-- `FunctionType::overloads_and_implementation(db)` -/
  overloadsAndImplementation : Nat → List Overload × Option ImplSig

/-! ## Rule catalog, levels, severities, selection (`rule.rs`) -/

/-- `rule::Level` — the default level of a rule. -/
inductive Level where
  | ignore
  | warn
  | error
deriving DecidableEq, Repr

/-- `ruff_db::diagnostic::Severity` (the two values produced here). -/
inductive Severity where
  | warning
  | error
deriving DecidableEq, Repr

/-- `rule::RuleSource` — provenance of a selection entry. -/
inductive RuleSource where
  | default
  | cli
  | file
deriving DecidableEq, Repr

/-- `Severity::try_from(level).ok()`: `Warn → Warning`, `Error → Error`,
`Ignore → None`. -/
def severityOfLevel : Level → Option Severity
  | .ignore => none
  | .warn => some .warning
  | .error => some .error

/-- The slice of `RuleMetadata` the claims depend on. -/
structure RuleMetadata where
  name : LCStr
  defaultLevel : Level
  /-- `status.is_removed()` -/
  isRemoved : Bool
deriving DecidableEq, Repr

/-- A `RuleId` is identity of a registered rule; in this embedding,
its index in the registry's registration order. -/
abbrev RuleId := Nat

/-- `RuleSelection`: map from rule id to (severity, provenance);
absence of an entry means the rule is disabled. -/
abbrev RuleSelection := List (RuleId × Severity × RuleSource)

/-- `RuleSelection::get`. -/
def selGet (sel : RuleSelection) (rule : RuleId) : Option (Severity × RuleSource) :=
  (sel.find? (fun e => e.1 = rule)).map (·.2)

/-- `RuleSelection::severity`. -/
def selSeverity (sel : RuleSelection) (rule : RuleId) : Option Severity :=
  (selGet sel rule).map (·.1)

/-- `RuleSelection::is_enabled`. -/
def selIsEnabled (sel : RuleSelection) (rule : RuleId) : Bool :=
  (selSeverity sel rule).isSome

/-- Helper for `from_registry_with_default`: seed entries for the rules
starting at registry index `i`, in registration order. -/
def seedFrom (i : Nat) (defaultSeverity : Option Severity) :
    List RuleMetadata → RuleSelection
  | [] => []
  | r :: rest =>
    match (severityOfLevel r.defaultLevel).or defaultSeverity with
    | some sev => (i, sev, RuleSource.default) :: seedFrom (i + 1) defaultSeverity rest
    | none => seedFrom (i + 1) defaultSeverity rest

/-- `RuleSelection::from_registry_with_default`: every active rule whose
default level maps to a severity (or, failing that, the given default
severity) is inserted with provenance `Default`. -/
def fromRegistryWithDefault (rules : List RuleMetadata)
    (defaultSeverity : Option Severity) : RuleSelection :=
  seedFrom 0 defaultSeverity rules

/-- `RuleSelection::from_registry`. -/
def fromRegistry (rules : List RuleMetadata) : RuleSelection :=
  fromRegistryWithDefault rules none

/-! ## Registry construction (`RuleRegistryBuilder`) -/

/-- `rule::RuleEntry` — what a name in the index points at. -/
inductive RuleEntry where
  | ruleE (m : RuleMetadata)
  | removedE (m : RuleMetadata)
  | aliasE (m : RuleMetadata)
deriving DecidableEq, Repr

/-- `RuleEntry::from(&RuleMetadata)`. -/
def entryFrom (m : RuleMetadata) : RuleEntry :=
  if m.isRemoved then .removedE m else .ruleE m

/-- `RuleRegistryBuilder`: active rules in registration order plus the
name index (a hash map in the source; an assoc list here — only key
presence and bound values matter). -/
structure RuleRegistryBuilder where
  rules : List RuleMetadata
  byName : List (LCStr × RuleEntry)
deriving DecidableEq, Repr

/-- The default (empty) builder. -/
def emptyBuilder : RuleRegistryBuilder := ⟨[], []⟩

/-- `register_rule`: inserts by name, panicking (`none`) on a duplicate
name; non-removed rules are appended to the active list. -/
def registerRule (b : RuleRegistryBuilder) (m : RuleMetadata) :
    Option RuleRegistryBuilder :=
  match lookupAssoc b.byName m.name with
  | some _ => none
  | none =>
    some { rules := if m.isRemoved then b.rules else b.rules ++ [m],
           byName := b.byName ++ [(m.name, entryFrom m)] }

/-- `register_alias`: resolves the target by name; panics (`none`) when
the target is another alias or is not registered, or when the alias
name itself is already taken. -/
def registerAlias (b : RuleRegistryBuilder) (fromName : LCStr)
    (target : RuleMetadata) : Option RuleRegistryBuilder :=
  match lookupAssoc b.byName target.name with
  | some (.ruleE tgt) | some (.removedE tgt) =>
    match lookupAssoc b.byName fromName with
    | some _ => none
    | none => some { b with byName := b.byName ++ [(fromName, .aliasE tgt)] }
  | some (.aliasE _) => none
  | none => none

/-- One registry-construction step. -/
inductive RegOp where
  | rule (m : RuleMetadata)
  | aliasOp (fromName : LCStr) (target : RuleMetadata)
deriving DecidableEq, Repr

/-- Apply one construction step; `none` models the panic. -/
def applyRegOp (b : RuleRegistryBuilder) : RegOp → Option RuleRegistryBuilder
  | .rule m => registerRule b m
  | .aliasOp f t => registerAlias b f t

/-- Run a whole registry construction; `none` models an aborted build. -/
def runRegOps : List RegOp → RuleRegistryBuilder → Option RuleRegistryBuilder
  | [], b => some b
  | op :: rest, b =>
    match applyRegOp b op with
    | none => none
    | some b' => runRegOps rest b'

/-! ## The concrete rule catalog (`rules.rs::register_rules`) -/

/-- The registered rules, in registration order, with their declared
default levels.  All fourteen are active (none is `Removed`). -/
def registryRules : List RuleMetadata := [
  ⟨("typing-any-used".toList), .warn, false⟩,
  ⟨("invalid-overload-implementation".toList), .error, false⟩,
  ⟨("typing-overload-used".toList), .warn, false⟩,
  ⟨("type-checking-directive-used".toList), .warn, false⟩,
  ⟨("if-type-checking-used".toList), .warn, false⟩,
  ⟨("invalid-function-defaults".toList), .error, false⟩,
  ⟨("mutating-function-code-attribute".toList), .error, false⟩,
  ⟨("typing-cast-used".toList), .warn, false⟩,
  ⟨("mutating-globals-dict".toList), .error, false⟩,
  ⟨("typing-type-is-used".toList), .warn, false⟩,
  ⟨("callable-ellipsis-used".toList), .warn, false⟩,
  ⟨("mutable-generic-default".toList), .error, false⟩,
  ⟨("mangled-dunder-instance-variable".toList), .warn, false⟩,
  ⟨("invalid-setattr".toList), .warn, false⟩]

/-- Registry indices (the `RuleId`s) of the rules used below. -/
def TYPING_ANY_USED : RuleId := 0
def INVALID_OVERLOAD_IMPLEMENTATION : RuleId := 1
def TYPING_OVERLOAD_USED : RuleId := 2
def TYPE_CHECKING_DIRECTIVE_USED : RuleId := 3
def IF_TYPE_CHECKING_USED : RuleId := 4
def INVALID_FUNCTION_DEFAULTS : RuleId := 5
def MUTATING_FUNCTION_CODE_ATTRIBUTE : RuleId := 6
def TYPING_CAST_USED : RuleId := 7
def MUTATING_GLOBALS_DICT : RuleId := 8
def TYPING_TYPE_IS_USED : RuleId := 9
def CALLABLE_ELLIPSIS_USED : RuleId := 10
def MUTABLE_GENERIC_DEFAULT : RuleId := 11
def MANGLED_DUNDER_INSTANCE_VARIABLE : RuleId := 12
def INVALID_SETATTR : RuleId := 13

/-- `rule.name()` for a registry index. -/
def ruleNameOf (rule : RuleId) : LCStr :=
  ((registryRules.get? rule).map (·.name)).getD []

/-- The run's default selection (`RuleSelection::from_registry`). -/
def defaultSelection : RuleSelection := fromRegistry registryRules

/-! ## Diagnostic context and guarded emission (`context.rs`)

A rule algorithm's call of `report_lint(...).into_diagnostic(...)`
followed by optional `info(...)` mutations and the guard's `Drop` is
embedded as a `LintRequest` (rule, primary range, message, info
sub-diagnostics) processed by `emitRequest`: the selection lookup is
`LintDiagnosticGuardBuilder::new`, and `dropGuard` is the `Drop` impl
that appends the provenance sub-diagnostic and pushes the finished
diagnostic — exactly once — into the context's list. -/

/-- A finished diagnostic: rule id string, severity, primary span,
message, and sub-diagnostic messages (all `Info`-severity). -/
structure Diagnostic where
  id : LCStr
  severity : Severity
  primarySpan : Rng
  message : LCStr
  subs : List LCStr
deriving DecidableEq, Repr

/-- One `report_*` call made by a rule algorithm. -/
structure LintRequest where
  rule : RuleId
  rng : Rng
  message : LCStr
  infos : List LCStr
deriving DecidableEq, Repr

/-- `LintDiagnosticGuardBuilder` (after a successful selection lookup). -/
structure LintDiagnosticGuardBuilder where
  id : LCStr
  severity : Severity
  source : RuleSource
  primarySpan : Rng
deriving DecidableEq, Repr

/-- `LintDiagnosticGuard`: the diagnostic under construction plus the
provenance recorded for the `Drop` impl. -/
structure LintDiagnosticGuard where
  diag : Diagnostic
  source : RuleSource
deriving DecidableEq, Repr

/-- `LintDiagnosticGuardBuilder::new`: looks the rule up in the active
selection; `none` (no builder) when the rule is disabled. -/
def builderNew (sel : RuleSelection) (rule : RuleId) (range : Rng) :
    Option LintDiagnosticGuardBuilder :=
  match selGet sel rule with
  | none => none
  | some (severity, source) =>
    some ⟨ruleNameOf rule, severity, source, range⟩

/-- `LintDiagnosticGuardBuilder::into_diagnostic`: allocates the
diagnostic with its primary span (message only on the diagnostic). -/
def intoDiagnostic (b : LintDiagnosticGuardBuilder) (message : LCStr) :
    LintDiagnosticGuard :=
  ⟨⟨b.id, b.severity, b.primarySpan, message, []⟩, b.source⟩

/-- `LintDiagnosticGuard::info`: append one info sub-diagnostic. -/
def guardInfo (g : LintDiagnosticGuard) (m : LCStr) : LintDiagnosticGuard :=
  { g with diag := { g.diag with subs := g.diag.subs ++ [m] } }

/-- The provenance sub-diagnostic text appended on drop. -/
def provenanceMessage (source : RuleSource) (id : LCStr) : LCStr :=
  match source with
  | .default => ("rule `".toList) ++ id ++ ("` is enabled by default".toList)
  | .cli => ("rule `".toList) ++ id ++ ("` was selected on the command line".toList)
  | .file => ("rule `".toList) ++ id ++ ("` was selected in the configuration file".toList)

/-- `Drop for LintDiagnosticGuard`: append the provenance
sub-diagnostic and push the diagnostic into the context's list. -/
def dropGuard (g : LintDiagnosticGuard) (diags : List Diagnostic) :
    List Diagnostic :=
  diags ++ [{ g.diag with
              subs := g.diag.subs ++ [provenanceMessage g.source g.diag.id] }]

/-- Process one rule-algorithm report against the context: disabled
rules produce nothing; otherwise builder → diagnostic → info
mutations → drop. -/
def emitRequest (sel : RuleSelection) (diags : List Diagnostic)
    (req : LintRequest) : List Diagnostic :=
  match builderNew sel req.rule req.rng with
  | none => diags
  | some b => dropGuard (req.infos.foldl guardInfo (intoDiagnostic b req.message)) diags

/-- Process a file's reports in order, starting from an empty
diagnostic list (a fresh `Context`). -/
def runRequests (sel : RuleSelection) (reqs : List LintRequest) :
    List Diagnostic :=
  reqs.foldl (emitRequest sel) []

/-! ## The syntax tree

Each expression node records its source range and the semantic model's
inferred type for the node (`HasType::inferred_type`).  For an
assignment target, the model infers the type being assigned to it, so
a target's `ty` is the assigned value's type. -/

/-- Python expressions (the node kinds the checker distinguishes). -/
inductive PExpr where
  | nameE (rng : Rng) (ty : Ty) (id : LCStr)
  | subscriptE (rng : Rng) (ty : Ty) (value : PExpr) (slice : PExpr)
  | tupleE (rng : Rng) (ty : Ty) (elts : List PExpr)
  | ellipsisE (rng : Rng) (ty : Ty)
  | stringE (rng : Rng) (ty : Ty) (s : LCStr)
  | callE (rng : Rng) (ty : Ty) (func : PExpr) (args : List PExpr)
  | attrE (rng : Rng) (ty : Ty) (value : PExpr) (attr : LCStr)
  | listE (rng : Rng) (ty : Ty) (elts : List PExpr)
  | dictE (rng : Rng) (ty : Ty) (elts : List PExpr)
  | setE (rng : Rng) (ty : Ty) (elts : List PExpr)
  | compE (rng : Rng) (ty : Ty) (elts : List PExpr)
  | otherE (rng : Rng) (ty : Ty) (children : List PExpr)

/-- The node's source range. -/
def PExpr.rngOf : PExpr → Rng
  | .nameE r _ _ | .subscriptE r _ _ _ | .tupleE r _ _ | .ellipsisE r _
  | .stringE r _ _ | .callE r _ _ _ | .attrE r _ _ _ | .listE r _ _
  | .dictE r _ _ | .setE r _ _ | .compE r _ _ | .otherE r _ _ => r

/-- The node's inferred type (`expr.inferred_type(model)`). -/
def PExpr.tyOf : PExpr → Ty
  | .nameE _ t _ | .subscriptE _ t _ _ | .tupleE _ t _ | .ellipsisE _ t
  | .stringE _ t _ | .callE _ t _ _ | .attrE _ t _ _ | .listE _ t _
  | .dictE _ t _ | .setE _ t _ | .compE _ t _ | .otherE _ t _ => t

/-- `utils::is_mutable_expr`: list/dict/set literals and
comprehensions. -/
def isMutableExpr : PExpr → Bool
  | .listE _ _ _ | .dictE _ _ _ | .setE _ _ _ | .compE _ _ _ => true
  | _ => false

/-- `Expr::as_string_literal_expr`. -/
def asStringLiteral : PExpr → Option LCStr
  | .stringE _ _ s => some s
  | _ => none

/-- Python statements (the shapes the return-statement finder
distinguishes: `return`, nested `def`, anything else with its child
statements in source order). -/
inductive PyStmt where
  | ret (rng : Rng) (value : Option PExpr)
  | funcDefS (body : List PyStmt)
  | otherS (children : List PyStmt)

/-- A function parameter: optional annotated type expression and
optional default expression. -/
structure Param where
  annot : Option PExpr
  default : Option PExpr

/-- A `StmtFunctionDef` as the checker consumes it: inferred type of
the definition, parameters, return annotated expression, body. -/
structure FuncDef where
  rng : Rng
  ty : Ty
  params : List Param
  returns : Option PExpr
  body : List PyStmt

/-! ## The report constructors (`rules.rs::report_*`)

Each builds the `LintRequest` that the corresponding `report_*`
function submits when its rule is enabled (the enabled-check itself is
`emitRequest`'s selection lookup, observationally the same gating). -/

def reportTypingAnyUsed (rng : Rng) : LintRequest :=
  ⟨TYPING_ANY_USED, rng,
   ("Using `typing.Any` in type annotations can lead to runtime errors.".toList), []⟩

def reportCallableEllipsisUsed (rng : Rng) : LintRequest :=
  ⟨CALLABLE_ELLIPSIS_USED, rng,
   ("Using `...` in `Callable` type annotations can lead to runtime type errors.".toList), []⟩

def reportTypingOverloadUsed (rng : Rng) : LintRequest :=
  ⟨TYPING_OVERLOAD_USED, rng,
   ("Using `typing.overload` can lead to runtime errors.".toList), []⟩

def reportTypingTypeIsUsed (rng : Rng) : LintRequest :=
  ⟨TYPING_TYPE_IS_USED, rng,
   ("Using `typing.TypeIs` can lead to runtime type errors.".toList), []⟩

def reportMutableGenericDefault (rng : Rng) : LintRequest :=
  ⟨MUTABLE_GENERIC_DEFAULT, rng,
   ("Using a mutable default argument for a generic parameter in a function can lead to runtime type errors.".toList), []⟩

def reportMutatingGlobalsDict (rng : Rng) : LintRequest :=
  ⟨MUTATING_GLOBALS_DICT, rng,
   ("Mutating the `globals()` dictionary may lead to runtime type errors.".toList), []⟩

def reportMutatingFunctionCodeAttribute (rng : Rng) : LintRequest :=
  ⟨MUTATING_FUNCTION_CODE_ATTRIBUTE, rng,
   ("Mutating `__code__` attribute on a function may lead to runtime type errors.".toList), []⟩

def reportSettingFunctionDefaultsAttribute (ops : SemOps) (rng : Rng)
    (newDefaults : Ty) : LintRequest :=
  ⟨INVALID_FUNCTION_DEFAULTS, rng,
   ("Setting `__defaults__` to an object of type `".toList)
     ++ ops.displayTy newDefaults
     ++ ("` on a function may lead to runtime type errors.".toList), []⟩

def reportMangledDunderInstanceVariable (rng : Rng) (attrName : LCStr) : LintRequest :=
  ⟨MANGLED_DUNDER_INSTANCE_VARIABLE, rng,
   ("Explicit use of mangled attribute `".toList) ++ attrName
     ++ ("` can bypass type checking and lead to runtime type errors.".toList), []⟩

def reportTypeCheckingDirectiveUsed (rng : Rng) (directive : LCStr) : LintRequest :=
  ⟨TYPE_CHECKING_DIRECTIVE_USED, rng,
   ("Type checking directive `".toList) ++ directive
     ++ ("` suppresses type checker warnings, which may hide potential type errors.".toList), []⟩

/-- `get_return_type_display` inside
`report_invalid_overload_implementation`. -/
def getReturnTypeDisplay (ops : SemOps) : Option Ty → LCStr
  | none => ("`None`".toList)
  | some t => [Char.ofNat 96] ++ ops.displayTy t ++ [Char.ofNat 96]

/-- Comma-join used for the overload-return-type list rendering. -/
def joinComma : List LCStr → LCStr
  | [] => []
  | [s] => s
  | s :: rest => s ++ (", ".toList) ++ joinComma rest

def reportInvalidOverloadImplementation (ops : SemOps) (rng : Rng)
    (returnType : Option Ty) (overloadReturnTys : List (Option Ty)) : LintRequest :=
  ⟨INVALID_OVERLOAD_IMPLEMENTATION, rng,
   ("Invalid overload implementation can lead to runtime errors.".toList),
   [("This overload implementation is invalid as ".toList)
      ++ getReturnTypeDisplay ops returnType
      ++ (" is not assignable to any of the overload return types (".toList)
      ++ joinComma (overloadReturnTys.map (getReturnTypeDisplay ops))
      ++ (")".toList)]⟩

/-! ## Annot checkers (`ast/annotation.rs`) -/

/-- The two per-node checks of `DynamicAnnotationChecker::visit_expr`:
flag the node if its inferred type is `Any`; flag
`Callable[..., R]`-shaped subscripts whose first tuple element is a
literal ellipsis. -/
def dynChecksAt (e : PExpr) : List LintRequest :=
  (if e.tyOf = Ty.dynamicAny then [reportTypingAnyUsed e.rngOf] else [])
    ++ (match e.tyOf, e with
        | .callableT _, .subscriptE r _ _ (.tupleE _ _ (first :: _)) =>
          match first with
          | .ellipsisE _ _ => [reportCallableEllipsisUsed r]
          | _ => []
        | _, _ => [])

mutual
/-- `DynamicAnnotationChecker`'s source-order walk: checks at the node,
then its children in source order. -/
def dynVisitExpr : PExpr → List LintRequest
  | .nameE r t i => dynChecksAt (.nameE r t i)
  | .subscriptE r t v s =>
    dynChecksAt (.subscriptE r t v s) ++ dynVisitExpr v ++ dynVisitExpr s
  | .tupleE r t es => dynChecksAt (.tupleE r t es) ++ dynVisitMany es
  | .ellipsisE r t => dynChecksAt (.ellipsisE r t)
  | .stringE r t s => dynChecksAt (.stringE r t s)
  | .callE r t f args =>
    dynChecksAt (.callE r t f args) ++ dynVisitExpr f ++ dynVisitMany args
  | .attrE r t v a => dynChecksAt (.attrE r t v a) ++ dynVisitExpr v
  | .listE r t es => dynChecksAt (.listE r t es) ++ dynVisitMany es
  | .dictE r t es => dynChecksAt (.dictE r t es) ++ dynVisitMany es
  | .setE r t es => dynChecksAt (.setE r t es) ++ dynVisitMany es
  | .compE r t es => dynChecksAt (.compE r t es) ++ dynVisitMany es
  | .otherE r t cs => dynChecksAt (.otherE r t cs) ++ dynVisitMany cs

def dynVisitMany : List PExpr → List LintRequest
  | [] => []
  | e :: es => dynVisitExpr e ++ dynVisitMany es
end

/-- `check_annotation`: run the dynamic-annot checker over the
annotated type expression. -/
def checkAnnotExpr (e : PExpr) : List LintRequest := dynVisitExpr e

/-- `matches!(ty, Type::TypeVar(_))`. -/
def isTypeVarTy : Ty → Bool
  | .typeVarT _ => true
  | _ => false

mutual
/-- `GenericAnnotationChecker`: does any sub-expression's inferred type
match `Type::TypeVar(_)`? -/
def genericVisitExpr : PExpr → Bool
  | .nameE _ t _ => isTypeVarTy t
  | .subscriptE _ t v s => isTypeVarTy t || genericVisitExpr v || genericVisitExpr s
  | .tupleE _ t es => isTypeVarTy t || genericVisitMany es
  | .ellipsisE _ t => isTypeVarTy t
  | .stringE _ t _ => isTypeVarTy t
  | .callE _ t f args => isTypeVarTy t || genericVisitExpr f || genericVisitMany args
  | .attrE _ t v _ => isTypeVarTy t || genericVisitExpr v
  | .listE _ t es => isTypeVarTy t || genericVisitMany es
  | .dictE _ t es => isTypeVarTy t || genericVisitMany es
  | .setE _ t es => isTypeVarTy t || genericVisitMany es
  | .compE _ t es => isTypeVarTy t || genericVisitMany es
  | .otherE _ t cs => isTypeVarTy t || genericVisitMany cs

def genericVisitMany : List PExpr → Bool
  | [] => false
  | e :: es => genericVisitExpr e || genericVisitMany es
end

/-- `is_generic_annotation`. -/
def isGenericAnnot (e : PExpr) : Bool := genericVisitExpr e

/-! ## Overload checking (`statement/function_definition.rs`) -/

/-- A collected return statement, projected to what `check_overloads`
consumes: its range and the inferred type of its value, if any. -/
abbrev RetInfo := Rng × Option Ty

mutual
/-- `ReturnStatementFinder::visit_stmt`, with the visitor's mutable
state (collected returns, `inside_inner_function`) threaded
explicitly.  Note the faithful reproduction of the flag handling: on
leaving a nested `def` the flag is set back to `false`, not restored. -/
def finderStmt (acc : List RetInfo) (inside : Bool) :
    PyStmt → List RetInfo × Bool
  | .ret rng v =>
    (if inside then acc else acc ++ [(rng, v.map PExpr.tyOf)], inside)
  | .funcDefS body => ((finderBody acc true body).1, false)
  | .otherS cs => finderBody acc inside cs

/-- `source_order::walk_body` for the finder. -/
def finderBody (acc : List RetInfo) (inside : Bool) :
    List PyStmt → List RetInfo × Bool
  | [] => (acc, inside)
  | s :: rest =>
    let p := finderStmt acc inside s
    finderBody p.1 p.2 rest
end

/-- `get_return_statements`. -/
def getReturnStatements (fd : FuncDef) : List RetInfo :=
  (finderBody [] false fd.body).1

/-- The decorator inspection inside `check_overloads`' overload loop:
a decorator whose inferred type is a function literal known to be
`typing.overload` yields one report. -/
def overloadDecoratorReport (ops : SemOps) (d : Rng × Ty) : Option LintRequest :=
  match d.2 with
  | .functionLiteral did =>
    if ops.isKnownOverload did then some (reportTypingOverloadUsed d.1)
    else none
  | _ => none

/-- The per-return-statement `match` of `check_overloads`. -/
def overloadReturnCheck (ops : SemOps) (overloadReturnTys : List (Option Ty))
    (unionOfOverloadReturnType : Ty) (isAnyOverloadReturnTypeNone : Bool)
    (r : RetInfo) : Option LintRequest :=
  match r.2, isAnyOverloadReturnTypeNone with
  | some t, true =>
    some (reportInvalidOverloadImplementation ops r.1 (some t) overloadReturnTys)
  | none, false =>
    some (reportInvalidOverloadImplementation ops r.1 none overloadReturnTys)
  | some t, false =>
    if ops.isAssignableTo t unionOfOverloadReturnType then none
    else some (reportInvalidOverloadImplementation ops r.1 (some t) overloadReturnTys)
  | none, true => none

/-- `check_overloads`: flag `typing.overload` decorator uses when an
implementation exists, then validate each collected return statement
against the overload return types. -/
def checkOverloads (ops : SemOps) (fd : FuncDef) : List LintRequest :=
  match fd.ty with
  | .functionLiteral fid =>
    let oi := ops.overloadsAndImplementation fid
    let overloads := oi.1
    let implementation := oi.2
    let decoratorReports :=
      if implementation.isSome then
        overloads.flatMap (fun ov =>
          ov.decorators.filterMap (overloadDecoratorReport ops))
      else []
    if overloads.isEmpty then decoratorReports
    else
      let overloadReturnTys := overloads.map (·.returnTy)
      let unionOfOverloadReturnType := ops.unionAll (overloadReturnTys.filterMap id)
      let isAnyOverloadReturnTypeNone := overloadReturnTys.any Option.isNone
      decoratorReports ++ (getReturnStatements fd).filterMap
        (overloadReturnCheck ops overloadReturnTys unionOfOverloadReturnType
          isAnyOverloadReturnTypeNone)
  | _ => []

/-- `check_function_definition_statement`: overload checks, `TypeIs`
return check, parameter annots (with the mutable-generic-default
check), then the return annot. -/
def checkFunctionDefinitionStatement (ops : SemOps) (fd : FuncDef) :
    List LintRequest :=
  checkOverloads ops fd
    ++ (match fd.returns with
        | some returnType =>
          match returnType.tyOf with
          | .typeIsT _ => [reportTypingTypeIsUsed returnType.rngOf]
          | _ => []
        | none => [])
    ++ (fd.params.flatMap (fun p =>
        match p.annot with
        | some ann =>
          checkAnnotExpr ann
            ++ (match p.default with
                | some d =>
                  if isMutableExpr d && isGenericAnnot ann then
                    [reportMutableGenericDefault d.rngOf]
                  else []
                | none => [])
        | none => []))
    ++ (match fd.returns with
        | some returnAnnot => checkAnnotExpr returnAnnot
        | none => [])

/-! ## Assignment checking (`statement/assignment_statement.rs`) -/

/-- `is_globals_call`: a call whose callee is the name `globals`. -/
def isGlobalsCall : PExpr → Bool
  | .callE _ _ func _ =>
    match func with
    | .nameE _ _ id => id = ("globals".toList)
    | _ => false
  | _ => false

/-- The element-by-parameter loop of the `__defaults__` check: walk the
new tuple's fixed elements alongside the parameters' annotated types
(from the first parameter), skipping unannotated parameters, and
report (then break) at the first non-assignable replacement. -/
def zipDefaultsCheck (ops : SemOps) (rng : Rng) (inferredTargetType : Ty) :
    List Ty → List (Option Ty) → List LintRequest
  | t :: ts, some a :: rest =>
    if ops.isAssignableTo t a then zipDefaultsCheck ops rng inferredTargetType ts rest
    else [reportSettingFunctionDefaultsAttribute ops rng inferredTargetType]
  | _ :: ts, none :: rest => zipDefaultsCheck ops rng inferredTargetType ts rest
  | _, _ => []

/-- `check_assignment`'s per-target dispatch.  `members` is the semantic
model's `members_in_scope_at` answer at the assignment. -/
def checkAssignTarget (ops : SemOps) (members : List (LCStr × Ty))
    (target : PExpr) : List LintRequest :=
  match target with
  | .subscriptE rng ty value slice =>
    if isGlobalsCall value then
      match asStringLiteral slice with
      | some key =>
        match lookupAssoc members key with
        | some currentType =>
          let valueType := ty
          let currentPromotion := ops.promoteLiterals currentType
          if ops.isAssignableTo valueType currentPromotion then []
          else [reportMutatingGlobalsDict rng]
        | none => []
      | none => []
    else []
  | .attrE rng ty value attr =>
    match value.tyOf with
    | .functionLiteral fid =>
      if attr = ("__defaults__".toList) then
        match (ops.overloadsAndImplementation fid).2 with
        | none => []
        | some signature =>
          let annotatedTys := signature.annotatedTys
          let defaultTys := signature.defaultTys.filter Option.isSome
          let inferredTargetType := ty
          let noneReports :=
            if ops.isNoneTy inferredTargetType && !defaultTys.isEmpty then
              [reportSettingFunctionDefaultsAttribute ops rng inferredTargetType]
            else []
          match ops.tupleInstanceSpec inferredTargetType with
          | none => noneReports
          | some targetTupleElements =>
            if targetTupleElements.length < defaultTys.length then
              noneReports ++ [reportSettingFunctionDefaultsAttribute ops rng inferredTargetType]
            else
              noneReports ++ zipDefaultsCheck ops rng inferredTargetType
                targetTupleElements annotatedTys
      else if attr = ("__code__".toList) then
        [reportMutatingFunctionCodeAttribute rng]
      else []
    | _ => []
  | _ => []

/-- `check_assignment`: run the per-target dispatch over all targets. -/
def checkAssignment (ops : SemOps) (members : List (LCStr × Ty))
    (targets : List PExpr) : List LintRequest :=
  targets.flatMap (checkAssignTarget ops members)

/-! ## Mangled-dunder attribute access (`expr/attribute.rs`) -/

/-- The `class_name` derivation of
`check_possibly_mangled_dunder_variable_access`: the display of a
bound type variable's upper bound, or the display of a nominal
instance type. -/
def deriveClassName (ops : SemOps) : Ty → Option LCStr
  | .typeVarT tid => (ops.typevarUpperBound tid).map ops.displayTy
  | .nominalInstance n => some (ops.displayTy (.nominalInstance n))
  | _ => none

/-- `is_mangled_dunder_variable`: the attribute starts with
`_<ClassName>__` and has at least one more character. -/
def isMangledDunderVariable (attrName className : LCStr) : Bool :=
  let expectedPre := ('_' :: className) ++ ['_', '_']
  lStartsWith attrName expectedPre && attrName.length > expectedPre.length

/-- `check_possibly_mangled_dunder_variable_access`. -/
def checkPossiblyMangledDunderVariableAccess (ops : SemOps) :
    PExpr → List LintRequest
  | .attrE rng _ value attr =>
    match deriveClassName ops value.tyOf with
    | none => []
    | some className =>
      if isMangledDunderVariable attr className then
        [reportMangledDunderInstanceVariable rng attr]
      else []
  | _ => []

/-! ## Directive comments (`checker/comments/mod.rs`) -/

/-- The suppression-directive vocabulary, in match order. -/
def TYPE_CHECKING_DIRECTIVES : List LCStr :=
  [("type: ignore".toList), ("pyright: ignore".toList),
   ("ty: ignore".toList), ("pyrefly: ignore".toList)]

/-- `find_type_checking_directive`: everything after the *first*
occurrence of `"# "` in the comment text, trimmed, prefix-matched
against the directive list in order. -/
def findTypeCheckingDirective (line : LCStr) : Option LCStr :=
  match strFind line ("# ".toList) with
  | none => none
  | some commentStart =>
    let commentContent := line.drop (commentStart + 2)
    let commentContent := lTrim commentContent
    TYPE_CHECKING_DIRECTIVES.find? (fun d => lStartsWith commentContent d)

/-- `check_comments`: one report per comment whose text matches a
directive. -/
def checkComments (comments : List (Rng × LCStr)) : List LintRequest :=
  comments.filterMap (fun c =>
    (findTypeCheckingDirective c.2).map (reportTypeCheckingDirectiveUsed c.1))

/-! ## Concrete semantic-model instances

Small executable instantiations of the external semantic model, used
to evaluate the checker on concrete programs.  `trivOps` answers every
query trivially; scenario-specific instances override the fields the
scenario exercises, mirroring the documented behaviour of
`ty_python_semantic` on the types involved. -/

/-- A trivial concrete semantic model. -/
def trivOps : SemOps where
  isAssignableTo := fun _ _ => false
  promoteLiterals := id
  isNoneTy := fun _ => false
  tupleInstanceSpec := fun _ => none
  unionAll := fun _ => Ty.otherT 0
  displayTy := fun _ => []
  typevarUpperBound := fun _ => none
  isKnownOverload := fun _ => false
  overloadsAndImplementation := fun _ => ([], none)

/-! ## Helper lemmas -/

/-- `lStartsWith` succeeds exactly on prefixes. -/
theorem lStartsWith_iff_append (p : LCStr) :
    ∀ a : LCStr, lStartsWith a p = true ↔ ∃ s, a = p ++ s := by
  induction p with
  | nil =>
    intro a
    simp [lStartsWith]
  | cons c cs ih =>
    intro a
    cases a with
    | nil => simp [lStartsWith]
    | cons b bs =>
      simp only [lStartsWith, Bool.and_eq_true, decide_eq_true_eq, ih bs]
      constructor
      · rintro ⟨rfl, s, rfl⟩
        exact ⟨s, rfl⟩
      · rintro ⟨s, hs⟩
        simp only [List.cons_append, List.cons.injEq] at hs
        exact ⟨hs.1, s, hs.2⟩

/-- An assoc-list lookup misses exactly when no entry bears the key. -/
theorem lookupAssoc_eq_none {β : Type} :
    ∀ (l : List (LCStr × β)) (k : LCStr),
      lookupAssoc l k = none ↔ ∀ p ∈ l, p.1 ≠ k := by
  intro l k
  induction l with
  | nil => simp [lookupAssoc]
  | cons p rest ih =>
    obtain ⟨pk, pv⟩ := p
    constructor
    · intro hnone q hq
      unfold lookupAssoc at hnone
      by_cases h : pk = k
      · rw [if_pos h] at hnone
        exact absurd hnone (by simp)
      · rcases List.mem_cons.mp hq with rfl | hq'
        · exact h
        · rw [if_neg h] at hnone
          exact (ih.mp hnone) q hq'
    · intro hall
      unfold lookupAssoc
      have h : pk ≠ k := hall (pk, pv) (List.mem_cons_self _ _)
      rw [if_neg h]
      exact ih.mpr fun q hq => hall q (List.mem_cons_of_mem _ hq)

/-- Appending a fresh key preserves key distinctness. -/
theorem nodup_keys_append_singleton {β : Type}
    (l : List (LCStr × β)) (k : LCStr) (v : β)
    (hn : (l.map Prod.fst).Nodup) (hk : ∀ p ∈ l, p.1 ≠ k) :
    ((l ++ [(k, v)]).map Prod.fst).Nodup := by
  rw [List.map_append]
  apply List.Nodup.append hn (by simp)
  intro a ha hb
  simp only [List.map_cons, List.map_nil, List.mem_singleton] at hb
  subst hb
  rcases List.mem_map.mp ha with ⟨p, hp, rfl⟩
  exact hk p hp rfl

/-- Cons step for selection lookup. -/
theorem selGet_cons (k : RuleId) (v : Severity × RuleSource)
    (sel : RuleSelection) (rule : RuleId) :
    selGet ((k, v) :: sel) rule = if k = rule then some v else selGet sel rule := by
  by_cases h : k = rule <;> simp [selGet, List.find?_cons, h]

/-- Entries seeded at indices ≥ `j` never answer for a smaller index. -/
theorem selGet_seedFrom_lt (d : Option Severity) :
    ∀ (rules : List RuleMetadata) (j m : Nat), m < j →
      selGet (seedFrom j d rules) m = none := by
  intro rules
  induction rules with
  | nil => intro j m _; simp [seedFrom, selGet]
  | cons r rest ih =>
    intro j m hm
    unfold seedFrom
    cases hor : (severityOfLevel r.defaultLevel).or d with
    | none => exact ih (j + 1) m (Nat.lt_succ_of_lt hm)
    | some sev =>
      rw [selGet_cons, if_neg (show ¬ j = m by omega)]
      exact ih (j + 1) m (Nat.lt_succ_of_lt hm)

/-- The selection seeded from a registry suffix answers for index
`j + k` exactly with the `k`-th rule's mapped default severity. -/
theorem selGet_seedFrom (d : Option Severity) :
    ∀ (rules : List RuleMetadata) (j k : Nat) (h : k < rules.length),
      selGet (seedFrom j d rules) (j + k) =
        ((severityOfLevel (rules.get ⟨k, h⟩).defaultLevel).or d).map
          (fun s => (s, RuleSource.default)) := by
  intro rules
  induction rules with
  | nil => intro j k h; simp at h
  | cons r rest ih =>
    intro j k h
    cases k with
    | zero =>
      unfold seedFrom
      cases hor : (severityOfLevel r.defaultLevel).or d with
      | none =>
        simp only [List.get, Nat.add_zero, hor, Option.map_none']
        exact selGet_seedFrom_lt d rest (j + 1) j (Nat.lt_succ_self j)
      | some sev =>
        simp only [List.get, Nat.add_zero, hor, Option.map_some']
        rw [selGet_cons, if_pos rfl]
    | succ k' =>
      unfold seedFrom
      have hlen : k' < rest.length := by simpa using Nat.lt_of_succ_lt_succ h
      have harith : j + (k' + 1) = (j + 1) + k' := by omega
      cases hor : (severityOfLevel r.defaultLevel).or d with
      | none =>
        simp only [List.get]
        rw [harith]
        exact ih (j + 1) k' hlen
      | some sev =>
        simp only [List.get]
        rw [selGet_cons, if_neg (show ¬ j = j + (k' + 1) by omega), harith]
        exact ih (j + 1) k' hlen

/-- C4: a fresh default-seeded selection has no entry for an
Ignore-default rule (and reports it disabled), and for every other
registered rule holds exactly the pair (mapped default severity,
provenance `Default`) (and reports it enabled). -/
theorem c4_fresh_selection (rules : List RuleMetadata) (i : Nat)
    (h : i < rules.length) :
    ((rules.get ⟨i, h⟩).defaultLevel = Level.ignore →
        selGet (fromRegistryWithDefault rules none) i = none
        ∧ selSeverity (fromRegistryWithDefault rules none) i = none
        ∧ selIsEnabled (fromRegistryWithDefault rules none) i = false)
    ∧ ((rules.get ⟨i, h⟩).defaultLevel = Level.warn →
        selGet (fromRegistryWithDefault rules none) i
            = some (Severity.warning, RuleSource.default)
        ∧ selSeverity (fromRegistryWithDefault rules none) i = some Severity.warning
        ∧ selIsEnabled (fromRegistryWithDefault rules none) i = true)
    ∧ ((rules.get ⟨i, h⟩).defaultLevel = Level.error →
        selGet (fromRegistryWithDefault rules none) i
            = some (Severity.error, RuleSource.default)
        ∧ selSeverity (fromRegistryWithDefault rules none) i = some Severity.error
        ∧ selIsEnabled (fromRegistryWithDefault rules none) i = true) := by
  have key := selGet_seedFrom none rules 0 i h
  simp only [Nat.zero_add] at key
  refine ⟨fun hl => ?_, fun hl => ?_, fun hl => ?_⟩ <;>
    rw [hl] at key <;>
    simp only [severityOfLevel, Option.or, Option.map_some', Option.map_none'] at key <;>
    refine ⟨key, ?_, ?_⟩ <;>
    simp [selSeverity, selIsEnabled, fromRegistryWithDefault] at key ⊢ <;>
    simp [key]

/-- C4 witness: in the concrete registry, `typing-any-used` (index 0,
default Warn) is seeded as (Warning, Default) and enabled. -/
theorem c4_fresh_selection_witness :
    selGet (fromRegistryWithDefault registryRules none) TYPING_ANY_USED
        = some (Severity.warning, RuleSource.default)
      ∧ selIsEnabled (fromRegistryWithDefault registryRules none) TYPING_ANY_USED = true :=
  ⟨((c4_fresh_selection registryRules 0 (by decide)).2.1 (by decide)).1,
   ((c4_fresh_selection registryRules 0 (by decide)).2.1 (by decide)).2.2⟩

/-- Info mutations during a guard's scope accumulate at the end of the
sub-diagnostic list. -/
theorem foldl_guardInfo (ms : List LCStr) :
    ∀ g : LintDiagnosticGuard,
      ms.foldl guardInfo g =
        ⟨⟨g.diag.id, g.diag.severity, g.diag.primarySpan, g.diag.message,
          g.diag.subs ++ ms⟩, g.source⟩ := by
  induction ms with
  | nil =>
    intro g
    obtain ⟨⟨i, sv, sp, m, su⟩, so⟩ := g
    simp
  | cons m ms ih =>
    intro g
    obtain ⟨⟨i, sv, sp, msg, su⟩, so⟩ := g
    simp [guardInfo, ih]

/-- C2: `report_lint` yields no builder exactly when the rule has no
entry in the run's selection; and a report through a returned builder
appends exactly one diagnostic to the context on scope exit — whatever
info mutations happened in between — with the single provenance
sub-diagnostic for its source appended at that moment. -/
theorem c2_report_lint_guarded_emission :
    (∀ (sel : RuleSelection) (rule : RuleId) (range : Rng),
        (builderNew sel rule range).isNone ↔ selGet sel rule = none)
    ∧ (∀ (sel : RuleSelection) (req : LintRequest) (diags : List Diagnostic)
        (sev : Severity) (src : RuleSource),
        selGet sel req.rule = some (sev, src) →
        emitRequest sel diags req =
          diags ++ [⟨ruleNameOf req.rule, sev, req.rng, req.message,
                     req.infos ++ [provenanceMessage src (ruleNameOf req.rule)]⟩])
    ∧ (∀ (sel : RuleSelection) (req : LintRequest) (diags : List Diagnostic),
        selGet sel req.rule = none → emitRequest sel diags req = diags) := by
  refine ⟨?_, ?_, ?_⟩
  · intro sel rule range
    unfold builderNew
    cases h : selGet sel rule with
    | none => simp
    | some p => simp
  · intro sel req diags sev src h
    unfold emitRequest builderNew
    rw [h]
    simp [intoDiagnostic, foldl_guardInfo, dropGuard]
  · intro sel req diags h
    unfold emitRequest builderNew
    rw [h]

/-- C2 witness: a `typing-any-used` report under the default selection
appends exactly one diagnostic carrying the default-provenance
sub-diagnostic. -/
theorem c2_report_lint_guarded_emission_witness :
    emitRequest defaultSelection [] (reportTypingAnyUsed 5) =
      [⟨ruleNameOf TYPING_ANY_USED, Severity.warning, 5,
        (reportTypingAnyUsed 5).message,
        (reportTypingAnyUsed 5).infos
          ++ [provenanceMessage RuleSource.default (ruleNameOf TYPING_ANY_USED)]⟩] :=
  c2_report_lint_guarded_emission.2.1 defaultSelection (reportTypingAnyUsed 5) []
    Severity.warning RuleSource.default (by decide)

/-! ## C9: registry construction fails fast; names stay unique -/

/-- One successful construction step keeps the name index duplicate
free. -/
theorem applyRegOp_preserves_nodup (b b' : RuleRegistryBuilder) (op : RegOp)
    (hstep : applyRegOp b op = some b')
    (hn : (b.byName.map Prod.fst).Nodup) :
    (b'.byName.map Prod.fst).Nodup := by
  cases op with
  | rule m =>
    replace hstep : registerRule b m = some b' := hstep
    unfold registerRule at hstep
    cases hl : lookupAssoc b.byName m.name with
    | some e => rw [hl] at hstep; exact absurd hstep (by simp)
    | none =>
      rw [hl] at hstep
      simp only [Option.some.injEq] at hstep
      subst hstep
      exact nodup_keys_append_singleton _ _ _ hn ((lookupAssoc_eq_none _ _).mp hl)
  | aliasOp f t =>
    replace hstep : registerAlias b f t = some b' := hstep
    unfold registerAlias at hstep
    cases hl : lookupAssoc b.byName t.name with
    | none => rw [hl] at hstep; exact absurd hstep (by simp)
    | some e =>
      rw [hl] at hstep
      cases e with
      | aliasE x => exact absurd hstep (by simp)
      | ruleE tgt =>
        cases hf : lookupAssoc b.byName f with
        | some e2 => rw [hf] at hstep; exact absurd hstep (by simp)
        | none =>
          rw [hf] at hstep
          simp only [Option.some.injEq] at hstep
          subst hstep
          exact nodup_keys_append_singleton _ _ _ hn ((lookupAssoc_eq_none _ _).mp hf)
      | removedE tgt =>
        cases hf : lookupAssoc b.byName f with
        | some e2 => rw [hf] at hstep; exact absurd hstep (by simp)
        | none =>
          rw [hf] at hstep
          simp only [Option.some.injEq] at hstep
          subst hstep
          exact nodup_keys_append_singleton _ _ _ hn ((lookupAssoc_eq_none _ _).mp hf)

/-- A successful construction run from a duplicate-free builder ends
duplicate free. -/
theorem runRegOps_nodup :
    ∀ (ops : List RegOp) (b0 b : RuleRegistryBuilder),
      (b0.byName.map Prod.fst).Nodup →
      runRegOps ops b0 = some b →
      (b.byName.map Prod.fst).Nodup := by
  intro ops
  induction ops with
  | nil =>
    intro b0 b hn hrun
    unfold runRegOps at hrun
    simp only [Option.some.injEq] at hrun
    subst hrun
    exact hn
  | cons op rest ih =>
    intro b0 b hn hrun
    unfold runRegOps at hrun
    cases hstep : applyRegOp b0 op with
    | none => rw [hstep] at hrun; exact absurd hrun (by simp)
    | some b1 =>
      rw [hstep] at hrun
      exact ih b1 b (applyRegOp_preserves_nodup b0 b1 op hstep hn) hrun

/-- C9: registering an already-present name panics; an alias whose
target resolves to another alias panics; an alias whose target is not
registered panics; and every successfully built registry has pairwise
distinct index names. -/
theorem c9_registry_fail_fast_unique_names :
    (∀ (b : RuleRegistryBuilder) (m : RuleMetadata) (e : RuleEntry),
        lookupAssoc b.byName m.name = some e → registerRule b m = none)
    ∧ (∀ (b : RuleRegistryBuilder) (f : LCStr) (t x : RuleMetadata),
        lookupAssoc b.byName t.name = some (RuleEntry.aliasE x) →
        registerAlias b f t = none)
    ∧ (∀ (b : RuleRegistryBuilder) (f : LCStr) (t : RuleMetadata),
        lookupAssoc b.byName t.name = none → registerAlias b f t = none)
    ∧ (∀ (ops : List RegOp) (b : RuleRegistryBuilder),
        runRegOps ops emptyBuilder = some b →
        (b.byName.map Prod.fst).Nodup) := by
  refine ⟨?_, ?_, ?_, ?_⟩
  · intro b m e h
    unfold registerRule
    rw [h]
  · intro b f t x h
    unfold registerAlias
    rw [h]
  · intro b f t h
    unfold registerAlias
    rw [h]
  · intro ops b hrun
    exact runRegOps_nodup ops emptyBuilder b (by simp [emptyBuilder]) hrun

/-- C9 witness: a concrete successful build (one rule, one alias to it)
has duplicate-free names; and re-registering the same rule fails. -/
theorem c9_registry_fail_fast_unique_names_witness :
    (∀ b, runRegOps
        [RegOp.rule ⟨("r1".toList), Level.warn, false⟩,
         RegOp.aliasOp ("r2".toList) ⟨("r1".toList), Level.warn, false⟩]
        emptyBuilder = some b → (b.byName.map Prod.fst).Nodup)
    ∧ registerRule
        ⟨[], [(("r1".toList), RuleEntry.ruleE ⟨("r1".toList), Level.warn, false⟩)]⟩
        ⟨("r1".toList), Level.error, false⟩ = none :=
  ⟨fun b hb => c9_registry_fail_fast_unique_names.2.2.2 _ b hb,
   c9_registry_fail_fast_unique_names.1 _ _
     (RuleEntry.ruleE ⟨("r1".toList), Level.warn, false⟩) (by decide)⟩

/-! ## C10: mangled-dunder access necessary conditions -/

/-- C10: a mangled-dunder-instance-variable finding on `x.attr` arises
only when `x`'s inferred type is a nominal instance or a type variable
with an upper bound, and only when `attr` strictly extends the derived
`_<ClassName>__` by a nonempty suffix (so `attr` exactly equal to the
mangling marker is never flagged, and an unbounded type variable
yields no finding). -/
theorem c10_mangled_dunder_only_when (ops : SemOps) (rng : Rng) (ty : Ty)
    (value : PExpr) (attr : LCStr)
    (h : checkPossiblyMangledDunderVariableAccess ops (.attrE rng ty value attr) ≠ []) :
    ((∃ n, value.tyOf = Ty.nominalInstance n)
      ∨ (∃ tid, value.tyOf = Ty.typeVarT tid ∧ (ops.typevarUpperBound tid).isSome))
    ∧ ∃ className suffix, deriveClassName ops value.tyOf = some className
        ∧ suffix ≠ [] ∧ attr = ('_' :: className) ++ ['_', '_'] ++ suffix := by
  replace h : (match deriveClassName ops value.tyOf with
      | none => ([] : List LintRequest)
      | some className =>
        if isMangledDunderVariable attr className then
          [reportMangledDunderInstanceVariable rng attr]
        else []) ≠ [] := h
  cases hcn : deriveClassName ops value.tyOf with
  | none =>
    rw [hcn] at h
    exact absurd rfl h
  | some cn =>
    rw [hcn] at h
    simp only [] at h
    by_cases hm : isMangledDunderVariable attr cn
    · constructor
      · cases tv : value.tyOf <;> rw [tv] at hcn <;>
          simp only [deriveClassName] at hcn <;>
          first
          | exact Option.noConfusion hcn
          | exact Or.inl ⟨_, rfl⟩
          | · rcases Option.map_eq_some'.mp hcn with ⟨ub, hub, _⟩
              exact Or.inr ⟨_, rfl, by rw [hub]; rfl⟩
      · simp only [isMangledDunderVariable, Bool.and_eq_true,
          decide_eq_true_eq] at hm
        obtain ⟨hstart, hlen⟩ := hm
        rcases (lStartsWith_iff_append _ _).mp hstart with ⟨s, hs⟩
        refine ⟨cn, s, rfl, ?_, by rw [hs, List.append_assoc]⟩
        intro hnil
        subst hnil
        rw [hs] at hlen
        simp at hlen
    · rw [if_neg hm] at h
      exact absurd rfl h

/-- C10 witness: `Foo()._Foo__x` (nominal instance displayed `Foo`,
attribute `_Foo__x`) satisfies all the necessary conditions. -/
theorem c10_mangled_dunder_only_when_witness :
    ((∃ n, (PExpr.nameE 2 (Ty.nominalInstance 0) ("f".toList)).tyOf = Ty.nominalInstance n)
      ∨ (∃ tid, (PExpr.nameE 2 (Ty.nominalInstance 0) ("f".toList)).tyOf = Ty.typeVarT tid
          ∧ (({ trivOps with
                displayTy := fun t => match t with
                  | .nominalInstance 0 => ("Foo".toList)
                  | _ => [] } : SemOps).typevarUpperBound tid).isSome))
    ∧ ∃ className suffix,
        deriveClassName
          { trivOps with
            displayTy := fun t => match t with
              | .nominalInstance 0 => ("Foo".toList)
              | _ => [] }
          (PExpr.nameE 2 (Ty.nominalInstance 0) ("f".toList)).tyOf = some className
        ∧ suffix ≠ []
        ∧ ("_Foo__x".toList) = ('_' :: className) ++ ['_', '_'] ++ suffix :=
  c10_mangled_dunder_only_when
    { trivOps with
      displayTy := fun t => match t with
        | .nominalInstance 0 => ("Foo".toList)
        | _ => [] }
    1 (Ty.otherT 0) (PExpr.nameE 2 (Ty.nominalInstance 0) ("f".toList))
    ("_Foo__x".toList) (by decide)

/-! ## C7: directive comments -/

/-- The C7 claim's reading of directive matching, following the spec's
words: strip the *leading* `"# "` from the comment's text (when
present), trim surrounding whitespace, and prefix-match the directive
vocabulary in order. -/
def findDirectiveSpec (comment : LCStr) : Option LCStr :=
  let content :=
    lTrim (if lStartsWith comment ("# ".toList) then comment.drop 2 else comment)
  TYPE_CHECKING_DIRECTIVES.find? (fun d => lStartsWith content d)

/-- C7 counterexample: on the comment `#x # type: ignore` the code
reports a directive (it matches after the *first* occurrence of `# `
anywhere in the comment), while the claim's leading-strip reading
finds none — so "emitted exactly when the stripped content starts with
a directive" fails. -/
theorem c7_directive_comment_counterexample :
    ¬ ((findTypeCheckingDirective ("#x # type: ignore".toList)).isSome
        ↔ (findDirectiveSpec ("#x # type: ignore".toList)).isSome)
    ∧ findTypeCheckingDirective ("#x # type: ignore".toList)
        = some ("type: ignore".toList)
    ∧ findDirectiveSpec ("#x # type: ignore".toList) = none := by
  refine ⟨?_, by decide, by decide⟩
  decide

/-- C7 amended: for a comment whose text begins with `# `, a directive
is reported exactly when the content after that leading `# `, trimmed
of surrounding whitespace, starts with one of the four directives, and
the first directive of the vocabulary that matches is the one
reported.  (A comment not beginning with `# ` is matched after the
first interior occurrence of `# ` instead.) -/
theorem c7_directive_comment_amended (line : LCStr)
    (h : lStartsWith line ("# ".toList) = true) :
    findTypeCheckingDirective line = findDirectiveSpec line := by
  have h0 : strFind line ("# ".toList) = some 0 := by
    unfold strFind
    rw [if_pos h]
  unfold findTypeCheckingDirective findDirectiveSpec
  rw [h0, if_pos h]

/-- C7 witness: the claim's own scenario `# type: ignore[foo]` — one
report, naming directive `type: ignore`, irrespective of the bracketed
suffix. -/
theorem c7_directive_comment_amended_witness :
    lStartsWith ("# type: ignore[foo]".toList) ("# ".toList) = true
    ∧ findTypeCheckingDirective ("# type: ignore[foo]".toList)
        = findDirectiveSpec ("# type: ignore[foo]".toList)
    ∧ findTypeCheckingDirective ("# type: ignore[foo]".toList)
        = some ("type: ignore".toList) :=
  ⟨by decide, c7_directive_comment_amended _ (by decide), by decide⟩

/-! ## C1 / C8: overload checking -/

/-- Does a request report `invalid-overload-implementation`? -/
def isInvalidOverloadReq (req : LintRequest) : Bool :=
  req.rule == INVALID_OVERLOAD_IMPLEMENTATION

/-- Does a request report `typing-overload-used`? -/
def isOverloadUsedReq (req : LintRequest) : Bool :=
  req.rule == TYPING_OVERLOAD_USED

/-- A decorator use of `typing.overload` (a function literal the model
knows as `KnownFunction::Overload`). -/
def isOverloadDecorator (ops : SemOps) (d : Rng × Ty) : Bool :=
  match d.2 with
  | .functionLiteral did => ops.isKnownOverload did
  | _ => false

/-- In a pairwise first-component-distinct list, equal firsts force
equal pairs. -/
theorem pairwise_fst_inj {α β : Type} :
    ∀ (l : List (α × β)), l.Pairwise (fun a b => a.1 ≠ b.1) →
      ∀ p ∈ l, ∀ q ∈ l, p.1 = q.1 → p = q := by
  intro l hl
  induction hl with
  | nil => intro p hp; exact absurd hp (List.not_mem_nil p)
  | cons hhead _ ih =>
    intro p hp q hq heq
    rcases List.mem_cons.mp hp with rfl | hp' <;>
      rcases List.mem_cons.mp hq with rfl | hq'
    · rfl
    · exact absurd heq (hhead q hq')
    · exact absurd heq.symm (hhead p hp')
    · exact ih p hp' q hq' heq

/-- Decorator reports carry the `typing-overload-used` rule. -/
theorem overloadDecoratorReport_eq_some (ops : SemOps) (d : Rng × Ty)
    (req : LintRequest) (h : overloadDecoratorReport ops d = some req) :
    req.rule = TYPING_OVERLOAD_USED ∧ isOverloadDecorator ops d = true := by
  unfold overloadDecoratorReport at h
  cases hd : d.2 <;> rw [hd] at h
  case functionLiteral did =>
    replace h : (if ops.isKnownOverload did = true then
        some (reportTypingOverloadUsed d.1) else none) = some req := h
    by_cases hk : ops.isKnownOverload did = true
    · rw [if_pos hk] at h
      cases h
      refine ⟨rfl, ?_⟩
      unfold isOverloadDecorator
      rw [hd]
      exact hk
    · rw [if_neg hk] at h
      exact Option.noConfusion h
  all_goals exact Option.noConfusion h

/-- The per-return check produces requests with the
`invalid-overload-implementation` rule, located at the return. -/
theorem overloadReturnCheck_eq_some (ops : SemOps) (tys : List (Option Ty))
    (u : Ty) (anyNone : Bool) (r : RetInfo) (req : LintRequest)
    (h : overloadReturnCheck ops tys u anyNone r = some req) :
    req.rule = INVALID_OVERLOAD_IMPLEMENTATION ∧ req.rng = r.1 := by
  obtain ⟨rrng, rv⟩ := r
  cases rv with
  | none =>
    cases anyNone with
    | false =>
      replace h : some (reportInvalidOverloadImplementation ops rrng none tys)
          = some req := h
      cases h
      exact ⟨rfl, rfl⟩
    | true => exact Option.noConfusion h
  | some t =>
    cases anyNone with
    | true =>
      replace h : some (reportInvalidOverloadImplementation ops rrng (some t) tys)
          = some req := h
      cases h
      exact ⟨rfl, rfl⟩
    | false =>
      replace h : (if ops.isAssignableTo t u = true then none
          else some (reportInvalidOverloadImplementation ops rrng (some t) tys))
          = some req := h
      by_cases ha : ops.isAssignableTo t u = true
      · rw [if_pos ha] at h
        exact Option.noConfusion h
      · rw [if_neg ha] at h
        cases h
        exact ⟨rfl, rfl⟩

/-- When the per-return check fires. -/
theorem overloadReturnCheck_isSome_iff (ops : SemOps) (tys : List (Option Ty))
    (u : Ty) (anyNone : Bool) (r : RetInfo) :
    (overloadReturnCheck ops tys u anyNone r).isSome = true ↔
      (if anyNone then r.2.isSome = true
       else ∀ t, r.2 = some t → ops.isAssignableTo t u = false) := by
  obtain ⟨rrng, rv⟩ := r
  cases rv with
  | none =>
    cases anyNone with
    | false => exact ⟨fun _ t ht => Option.noConfusion ht, fun _ => rfl⟩
    | true => exact Iff.rfl
  | some t =>
    cases anyNone with
    | true => exact Iff.rfl
    | false =>
      show (if ops.isAssignableTo t u = true then none
          else some (reportInvalidOverloadImplementation ops rrng (some t) tys)).isSome
            = true
        ↔ ∀ t', some t = some t' → ops.isAssignableTo t' u = false
      by_cases ha : ops.isAssignableTo t u = true
      · rw [if_pos ha]
        exact ⟨fun hx => Bool.noConfusion hx,
               fun h => absurd (h t rfl) (by simp [ha])⟩
      · rw [if_neg ha]
        constructor
        · intro _ t' ht'
          injection ht' with hte
          subst hte
          exact Bool.eq_false_iff.mpr ha
        · intro _
          rfl

/-- Structured form of `check_overloads` for a resolved function
literal with at least one overload. -/
theorem checkOverloads_eq (ops : SemOps) (fd : FuncDef) (fid : Nat)
    (hty : fd.ty = Ty.functionLiteral fid)
    (hov : (ops.overloadsAndImplementation fid).1 ≠ []) :
    checkOverloads ops fd =
      (if (ops.overloadsAndImplementation fid).2.isSome then
        ((ops.overloadsAndImplementation fid).1).flatMap
          (fun ov => ov.decorators.filterMap (overloadDecoratorReport ops))
      else [])
      ++ (getReturnStatements fd).filterMap
        (overloadReturnCheck ops
          ((ops.overloadsAndImplementation fid).1.map (·.returnTy))
          (ops.unionAll
            (((ops.overloadsAndImplementation fid).1.map (·.returnTy)).filterMap id))
          (((ops.overloadsAndImplementation fid).1.map (·.returnTy)).any Option.isNone)) := by
  obtain ⟨r0, fty, ps, rets, body⟩ := fd
  simp only at hty
  subst hty
  unfold checkOverloads
  simp only []
  rw [if_neg (by simpa [List.isEmpty_iff] using hov)]

/-- Structured form of `check_overloads` when no overload is declared:
nothing is reported. -/
theorem checkOverloads_eq_no_overloads (ops : SemOps) (fd : FuncDef) (fid : Nat)
    (hty : fd.ty = Ty.functionLiteral fid)
    (hov : (ops.overloadsAndImplementation fid).1 = []) :
    checkOverloads ops fd = [] := by
  obtain ⟨r0, fty, ps, rets, body⟩ := fd
  simp only at hty
  subst hty
  unfold checkOverloads
  simp only [hov]
  rw [if_pos (by simp [hov, List.isEmpty_iff])]
  cases (ops.overloadsAndImplementation fid).2 <;> simp

/-- The C1 claim, as stated, evaluated on one function definition with
resolved overloads: if any overload return type is absent/unknown the
implementation-return validation is skipped entirely (no
invalid-overload report at all); otherwise each collected
value-returning statement is reported exactly when its type is not
assignable to the union of overload return types. -/
def c1ClaimHolds (ops : SemOps) (fd : FuncDef) (fid : Nat) : Bool :=
  let overloadReturnTys := ((ops.overloadsAndImplementation fid).1).map (·.returnTy)
  let unionTy := ops.unionAll (overloadReturnTys.filterMap id)
  if overloadReturnTys.any Option.isNone then
    (checkOverloads ops fd).countP isInvalidOverloadReq == 0
  else
    (getReturnStatements fd).all (fun r =>
      match r.2 with
      | some t =>
        ((checkOverloads ops fd).any (fun req =>
            isInvalidOverloadReq req && req.rng == r.1))
          == !(ops.isAssignableTo t unionTy)
      | none => true)

/-- A model with one overload that lacks a return annot (unknown
return type) and an implementation. -/
def exOpsC1 : SemOps :=
  { trivOps with
    overloadsAndImplementation := fun _ => ([⟨[], none⟩], some ⟨[], []⟩) }

/-- An implementation body with a single `return x` of type `int`. -/
def exFdC1 : FuncDef :=
  ⟨0, .functionLiteral 0, [], none,
   [.ret 1 (some (.nameE 2 .intT ("x".toList)))]⟩

/-- C1 counterexample: with an unknown overload return type the code
does not skip — it reports the value-returning statement — so the
claim fails at this input. -/
theorem c1_invalid_overload_counterexample :
    exFdC1.ty = Ty.functionLiteral 0
    ∧ (exOpsC1.overloadsAndImplementation 0).1 ≠ []
    ∧ c1ClaimHolds exOpsC1 exFdC1 0 = false := by
  refine ⟨rfl, by decide, by decide⟩

/-- C1 amended: for a function literal with at least one overload and
pairwise-distinct collected return ranges, an
invalid-overload-implementation diagnostic is emitted at a collected
return statement exactly when — if some overload return type is
absent/unknown — the return carries a value, and otherwise — all
overload return types known — the return is bare, or carries a value
whose type is not assignable to the union of the overload return
types.  (Collected returns are those the return-statement finder
gathers; the finder treats a return inside a nested function as
top-level again once a deeper nested definition has closed.) -/
theorem c1_invalid_overload_amended (ops : SemOps) (fd : FuncDef) (fid : Nat)
    (hty : fd.ty = Ty.functionLiteral fid)
    (hov : (ops.overloadsAndImplementation fid).1 ≠ [])
    (hdist : (getReturnStatements fd).Pairwise (fun a b => a.1 ≠ b.1))
    (rng : Rng) (v : Option Ty) (hmem : (rng, v) ∈ getReturnStatements fd) :
    (∃ req ∈ checkOverloads ops fd,
        isInvalidOverloadReq req = true ∧ req.rng = rng)
      ↔ (if ((ops.overloadsAndImplementation fid).1.map (·.returnTy)).any Option.isNone
         then v.isSome = true
         else ∀ t, v = some t →
           ops.isAssignableTo t
             (ops.unionAll
               (((ops.overloadsAndImplementation fid).1.map (·.returnTy)).filterMap id))
             = false) := by
  rw [checkOverloads_eq ops fd fid hty hov]
  set tys := (ops.overloadsAndImplementation fid).1.map (·.returnTy) with htys
  set u := ops.unionAll (tys.filterMap id) with hu
  set anyNone := tys.any Option.isNone with han
  constructor
  · rintro ⟨req, hreqmem, hinv, hrng⟩
    rcases List.mem_append.mp hreqmem with hA | hB
    · exfalso
      have hrule : req.rule = TYPING_OVERLOAD_USED := by
        by_cases hi : (ops.overloadsAndImplementation fid).2.isSome
        · rw [if_pos hi] at hA
          rcases List.mem_flatMap.mp hA with ⟨ov, _, hflt⟩
          rcases List.mem_filterMap.mp hflt with ⟨d, _, hd⟩
          exact (overloadDecoratorReport_eq_some ops d req hd).1
        · rw [if_neg hi] at hA
          exact absurd hA (List.not_mem_nil req)
      unfold isInvalidOverloadReq at hinv
      rw [hrule] at hinv
      exact absurd hinv (by decide)
    · rcases List.mem_filterMap.mp hB with ⟨p, hp, hfp⟩
      obtain ⟨hrule, hprng⟩ := overloadReturnCheck_eq_some ops tys u anyNone p req hfp
      have hpeq : p = (rng, v) :=
        pairwise_fst_inj _ hdist p hp (rng, v) hmem (by rw [← hprng, hrng])
      rw [hpeq] at hfp
      exact (overloadReturnCheck_isSome_iff ops tys u anyNone (rng, v)).mp
        (by rw [hfp]; rfl)
  · intro hr
    have hsome : (overloadReturnCheck ops tys u anyNone (rng, v)).isSome = true :=
      (overloadReturnCheck_isSome_iff ops tys u anyNone (rng, v)).mpr hr
    obtain ⟨req, hreq⟩ := Option.isSome_iff_exists.mp hsome
    obtain ⟨hrule, hprng⟩ :=
      overloadReturnCheck_eq_some ops tys u anyNone (rng, v) req hreq
    refine ⟨req,
      List.mem_append.mpr (Or.inr (List.mem_filterMap.mpr ⟨(rng, v), hmem, hreq⟩)),
      ?_, ?_⟩
    · unfold isInvalidOverloadReq
      rw [hrule]
      decide
    · exact hprng

/-- C1 witness: two known-return overloads whose union is `int`; the
implementation returns a `str`-typed value, which is reported. -/
theorem c1_invalid_overload_amended_witness :
    (∃ req ∈ checkOverloads
        { trivOps with
          overloadsAndImplementation := fun _ => ([⟨[], some .intT⟩], some ⟨[], []⟩),
          isAssignableTo := fun a b => a == b,
          unionAll := fun _ => .intT }
        ⟨0, .functionLiteral 0, [], none,
         [.ret 1 (some (.nameE 2 .strT ("x".toList)))]⟩,
        isInvalidOverloadReq req = true ∧ req.rng = 1)
      ↔ (if (([(⟨[], some Ty.intT⟩ : Overload)]).map (·.returnTy)).any Option.isNone
         then (some Ty.strT).isSome = true
         else ∀ t, (some Ty.strT : Option Ty) = some t →
           ({ trivOps with
              overloadsAndImplementation := fun _ => ([⟨[], some .intT⟩], some ⟨[], []⟩),
              isAssignableTo := fun a b => a == b,
              unionAll := fun _ => .intT } : SemOps).isAssignableTo t
             (({ trivOps with
                 overloadsAndImplementation := fun _ => ([⟨[], some .intT⟩], some ⟨[], []⟩),
                 isAssignableTo := fun a b => a == b,
                 unionAll := fun _ => .intT } : SemOps).unionAll
               ((([(⟨[], some Ty.intT⟩ : Overload)]).map (·.returnTy)).filterMap id))
             = false) :=
  c1_invalid_overload_amended
    { trivOps with
      overloadsAndImplementation := fun _ => ([⟨[], some .intT⟩], some ⟨[], []⟩),
      isAssignableTo := fun a b => a == b,
      unionAll := fun _ => .intT }
    ⟨0, .functionLiteral 0, [], none,
     [.ret 1 (some (.nameE 2 .strT ("x".toList)))]⟩
    0 rfl (by decide) (by decide) 1 (some Ty.strT) (by decide)

/-- The decorator check fires exactly on `typing.overload` decorators. -/
theorem overloadDecoratorReport_isSome (ops : SemOps) (d : Rng × Ty) :
    (overloadDecoratorReport ops d).isSome = isOverloadDecorator ops d := by
  unfold overloadDecoratorReport isOverloadDecorator
  rcases d with ⟨drng, dty⟩
  cases dty <;> try rfl
  case functionLiteral did =>
    show (if ops.isKnownOverload did = true then
        some (reportTypingOverloadUsed drng) else none).isSome
      = ops.isKnownOverload did
    by_cases hk : ops.isKnownOverload did = true
    · rw [if_pos hk, hk]
      rfl
    · rw [if_neg hk, Bool.eq_false_iff.mpr hk]
      rfl

/-- Counting through `filterMap` when every produced element satisfies
the predicate. -/
theorem countP_filterMap_all {α β : Type} (f : α → Option β) (p : β → Bool)
    (hall : ∀ a b, f a = some b → p b = true) :
    ∀ l : List α, (l.filterMap f).countP p = l.countP (fun a => (f a).isSome) := by
  intro l
  induction l with
  | nil => rfl
  | cons a l ih =>
    cases hf : f a with
    | none => simp [List.filterMap_cons, hf, List.countP_cons, ih]
    | some b => simp [List.filterMap_cons, hf, List.countP_cons, ih, hall a b hf]

/-- Counting distributes over `flatMap`. -/
theorem countP_flatMap {α β : Type} (g : α → List β) (p : β → Bool) :
    ∀ l : List α,
      (l.flatMap g).countP p = (l.map (fun a => (g a).countP p)).sum := by
  intro l
  induction l with
  | nil => rfl
  | cons a l ih => simp [List.flatMap_cons, List.countP_append, ih]

/-- C8 amended: for a function literal whose overloads come with an
implementation, the number of `typing-overload-used` diagnostics
equals the total number of `typing.overload` decorator uses across the
overload signatures — independently of the implementation-return
validation (the count never involves the assignability check). -/
theorem c8_overload_decorator_amended (ops : SemOps) (fd : FuncDef) (fid : Nat)
    (hty : fd.ty = Ty.functionLiteral fid)
    (himpl : (ops.overloadsAndImplementation fid).2.isSome = true) :
    (checkOverloads ops fd).countP isOverloadUsedReq
      = ((ops.overloadsAndImplementation fid).1.map
          (fun ov => ov.decorators.countP (isOverloadDecorator ops))).sum := by
  by_cases hov : (ops.overloadsAndImplementation fid).1 = []
  · rw [checkOverloads_eq_no_overloads ops fd fid hty hov, hov]
    rfl
  · rw [checkOverloads_eq ops fd fid hty hov, if_pos himpl, List.countP_append]
    have h2 : ((getReturnStatements fd).filterMap
        (overloadReturnCheck ops
          ((ops.overloadsAndImplementation fid).1.map (·.returnTy))
          (ops.unionAll
            (((ops.overloadsAndImplementation fid).1.map (·.returnTy)).filterMap id))
          (((ops.overloadsAndImplementation fid).1.map (·.returnTy)).any
            Option.isNone))).countP isOverloadUsedReq = 0 := by
      rw [List.countP_eq_zero]
      intro req hreq
      rcases List.mem_filterMap.mp hreq with ⟨p, _, hp⟩
      have hrule := (overloadReturnCheck_eq_some ops _ _ _ p req hp).1
      simp [isOverloadUsedReq, hrule, INVALID_OVERLOAD_IMPLEMENTATION,
        TYPING_OVERLOAD_USED]
    rw [h2, Nat.add_zero, countP_flatMap]
    congr 1
    apply List.map_congr_left
    intro ov _
    rw [countP_filterMap_all (overloadDecoratorReport ops) isOverloadUsedReq
      (fun d req hd => by
        have := (overloadDecoratorReport_eq_some ops d req hd).1
        simp [isOverloadUsedReq, this])]
    exact List.countP_congr (fun d _ => by rw [overloadDecoratorReport_isSome ops d])

/-- C8 witness: one overload carrying one `typing.overload` decorator,
with an implementation present — exactly one `typing-overload-used`
report. -/
theorem c8_overload_decorator_amended_witness :
    (checkOverloads
        { trivOps with
          overloadsAndImplementation :=
            fun _ => ([⟨[(7, .functionLiteral 1)], some .intT⟩], some ⟨[], []⟩),
          isKnownOverload := fun did => did == 1 }
        ⟨0, .functionLiteral 0, [], none, []⟩).countP isOverloadUsedReq
      = ((({ trivOps with
             overloadsAndImplementation :=
               fun _ => ([⟨[(7, .functionLiteral 1)], some .intT⟩], some ⟨[], []⟩),
             isKnownOverload := fun did => did == 1 } : SemOps).overloadsAndImplementation
            0).1.map
          (fun ov => ov.decorators.countP
            (isOverloadDecorator
              { trivOps with
                overloadsAndImplementation :=
                  fun _ => ([⟨[(7, .functionLiteral 1)], some .intT⟩], some ⟨[], []⟩),
                isKnownOverload := fun did => did == 1 }))).sum :=
  c8_overload_decorator_amended
    { trivOps with
      overloadsAndImplementation :=
        fun _ => ([⟨[(7, .functionLiteral 1)], some .intT⟩], some ⟨[], []⟩),
      isKnownOverload := fun did => did == 1 }
    ⟨0, .functionLiteral 0, [], none, []⟩ 0 rfl (by decide)

/-- The C8 claim, as stated, on one function definition: every
`typing.overload` decorator use on an overload yields one
`typing-overload-used` diagnostic (no implementation condition). -/
def c8ClaimHolds (ops : SemOps) (fd : FuncDef) (fid : Nat) : Bool :=
  (checkOverloads ops fd).countP isOverloadUsedReq
    == ((ops.overloadsAndImplementation fid).1.map
        (fun ov => ov.decorators.countP (isOverloadDecorator ops))).sum

/-- One overload with a `typing.overload` decorator but no
implementation (a stub-like chain). -/
def exOpsC8 : SemOps :=
  { trivOps with
    overloadsAndImplementation :=
      fun _ => ([⟨[(7, .functionLiteral 1)], some .intT⟩], none),
    isKnownOverload := fun did => did == 1 }

/-- The function definition carrying that overload chain. -/
def exFdC8 : FuncDef := ⟨0, .functionLiteral 0, [], none, []⟩

/-- C8 counterexample: with no implementation, the code reports no
`typing-overload-used` diagnostic although a `typing.overload`
decorator use is present — the claim fails at this input. -/
theorem c8_overload_decorator_counterexample :
    exFdC8.ty = Ty.functionLiteral 0
    ∧ (exOpsC8.overloadsAndImplementation 0).1 ≠ []
    ∧ c8ClaimHolds exOpsC8 exFdC8 0 = false := by
  refine ⟨rfl, by decide, by decide⟩

/-! ## C5 / C6: assignment checking -/

/-- The `__defaults__` element loop fires exactly when some aligned
pair has an annotated parameter whose annotated type does not admit
the replacement element. -/
theorem zipDefaultsCheck_ne_nil_iff (ops : SemOps) (rng : Rng) (tty : Ty) :
    ∀ (ts : List Ty) (annots : List (Option Ty)),
      zipDefaultsCheck ops rng tty ts annots ≠ [] ↔
        ∃ p ∈ ts.zip annots, ∃ a, p.2 = some a ∧ ops.isAssignableTo p.1 a = false := by
  intro ts
  induction ts with
  | nil =>
    intro annots
    cases annots <;> simp [zipDefaultsCheck]
  | cons t ts ih =>
    intro annots
    cases annots with
    | nil => simp [zipDefaultsCheck]
    | cons a0 rest =>
      cases a0 with
      | none =>
        simp [zipDefaultsCheck, ih rest]
      | some a =>
        by_cases hass : ops.isAssignableTo t a = true
        · simp [zipDefaultsCheck, hass, ih rest]
        · have ha' : ops.isAssignableTo t a = false := Bool.eq_false_iff.mpr hass
          simp [zipDefaultsCheck, ha']

/-- C6 amended: for `globals()[<literal-string-key>] = value` naming a
known symbol, a mutating-globals-dict diagnostic is emitted exactly
when the value's type is not assignable to the literal-widened current
type of the symbol (the widening applies to the symbol's current type);
a non-literal key or an unknown symbol yields no diagnostic. -/
theorem c6_mutating_globals_amended :
    (∀ (ops : SemOps) (members : List (LCStr × Ty)) (rng : Rng) (ty : Ty)
        (value slice : PExpr) (key : LCStr) (symTy : Ty),
        isGlobalsCall value = true →
        asStringLiteral slice = some key →
        lookupAssoc members key = some symTy →
        (checkAssignTarget ops members (.subscriptE rng ty value slice) ≠ [] ↔
          ops.isAssignableTo ty (ops.promoteLiterals symTy) = false))
    ∧ (∀ (ops : SemOps) (members : List (LCStr × Ty)) (rng : Rng) (ty : Ty)
        (value slice : PExpr),
        asStringLiteral slice = none →
        checkAssignTarget ops members (.subscriptE rng ty value slice) = [])
    ∧ (∀ (ops : SemOps) (members : List (LCStr × Ty)) (rng : Rng) (ty : Ty)
        (value slice : PExpr) (key : LCStr),
        asStringLiteral slice = some key →
        lookupAssoc members key = none →
        checkAssignTarget ops members (.subscriptE rng ty value slice) = []) := by
  refine ⟨?_, ?_, ?_⟩
  · intro ops members rng ty value slice key symTy hg hs hl
    simp only [checkAssignTarget, hg, hs, hl, if_true]
    by_cases ha : ops.isAssignableTo ty (ops.promoteLiterals symTy) = true <;>
      simp [ha]
  · intro ops members rng ty value slice hs
    by_cases hg : isGlobalsCall value = true <;>
      simp [checkAssignTarget, hg, hs]
  · intro ops members rng ty value slice key hs hl
    by_cases hg : isGlobalsCall value = true <;>
      simp [checkAssignTarget, hg, hs, hl]

/-- C6 witness: assigning a `str`-typed value over a symbol of current
type `int` is flagged. -/
theorem c6_mutating_globals_amended_witness :
    checkAssignTarget
        { trivOps with
          promoteLiterals := id,
          isAssignableTo := fun a b => a == b }
        [(("x".toList), Ty.intT)]
        (.subscriptE 0 Ty.strT
          (.callE 1 (.otherT 0) (.nameE 2 (.otherT 1) ("globals".toList)) [])
          (.stringE 3 .strT ("x".toList))) ≠ []
      ↔ ({ trivOps with
           promoteLiterals := id,
           isAssignableTo := fun a b => a == b } : SemOps).isAssignableTo Ty.strT
          (({ trivOps with
              promoteLiterals := id,
              isAssignableTo := fun a b => a == b } : SemOps).promoteLiterals Ty.intT)
          = false :=
  c6_mutating_globals_amended.1
    { trivOps with promoteLiterals := id, isAssignableTo := fun a b => a == b }
    [(("x".toList), Ty.intT)] 0 Ty.strT
    (.callE 1 (.otherT 0) (.nameE 2 (.otherT 1) ("globals".toList)) [])
    (.stringE 3 .strT ("x".toList)) ("x".toList) Ty.intT
    (by decide) (by decide) (by decide)

/-- The C6 claim, as stated, on one `globals()[key] = value` target:
flagged exactly when the *widened value type* is not assignable to the
symbol's current type. -/
def c6ClaimHolds (ops : SemOps) (members : List (LCStr × Ty)) (rng : Rng)
    (ty : Ty) (value slice : PExpr) (symTy : Ty) : Bool :=
  (!((checkAssignTarget ops members (.subscriptE rng ty value slice)).isEmpty))
    == !(ops.isAssignableTo (ops.promoteLiterals ty) symTy)

/-- A model with `ty`-like literal widening: `Literal[n]` widens to
`int`, literals are assignable to `int`, and assignability is
otherwise reflexive. -/
def exOpsC6 : SemOps :=
  { trivOps with
    promoteLiterals := fun t => match t with | .litInt _ => .intT | t => t,
    isAssignableTo := fun a b =>
      a == b || (match a, b with | .litInt _, .intT => true | _, _ => false) }

/-- The `globals()` callee expression. -/
def exValueC6 : PExpr :=
  .callE 1 (.otherT 0) (.nameE 2 (.otherT 1) ("globals".toList)) []

/-- The literal subscript key `"x"`. -/
def exSliceC6 : PExpr := .stringE 3 .strT ("x".toList)

/-- C6 counterexample: symbol `x` has current type `Literal[1]` and the
assigned value has type `Literal[2]`.  The code widens the *symbol's*
type (`int`) and accepts; the claim widens the *value's* type and
demands a diagnostic — so the claim fails at this input. -/
theorem c6_mutating_globals_counterexample :
    isGlobalsCall exValueC6 = true
    ∧ asStringLiteral exSliceC6 = some ("x".toList)
    ∧ lookupAssoc [(("x".toList), Ty.litInt 1)] ("x".toList) = some (Ty.litInt 1)
    ∧ c6ClaimHolds exOpsC6 [(("x".toList), Ty.litInt 1)] 0 (.litInt 2)
        exValueC6 exSliceC6 (Ty.litInt 1) = false := by
  refine ⟨rfl, rfl, by decide, by decide⟩

/-- The guard of the existing-defaults/None check, in Prop form. -/
theorem cond_and_isEmpty {α : Type} (b : Bool) (l : List α) :
    ((b && !l.isEmpty) = true) ↔ (b = true ∧ l ≠ []) := by
  cases b <;> cases l <;> simp

/-- C5 amended: for `fn.__defaults__ = newVal` on a resolved function
with an implementation signature, an invalid-function-defaults
diagnostic is emitted exactly when: the function has existing default
parameters but the new value's type denotes `None`; or the new value's
resolvable tuple shape has fewer fixed elements than the number of
currently-defaulted parameters; or some tuple element, aligned with
the function's parameters from the first and skipping unannotated
ones, has a type that is not assignable — with no literal widening —
to that parameter's annotated type. -/
theorem c5_function_defaults_amended (ops : SemOps) (members : List (LCStr × Ty))
    (rng : Rng) (ty : Ty) (value : PExpr) (fid : Nat) (sig : ImplSig)
    (hty : value.tyOf = Ty.functionLiteral fid)
    (himpl : (ops.overloadsAndImplementation fid).2 = some sig) :
    checkAssignTarget ops members (.attrE rng ty value ("__defaults__".toList)) ≠ []
      ↔ ((ops.isNoneTy ty = true ∧ sig.defaultTys.filter Option.isSome ≠ [])
          ∨ ∃ spec, ops.tupleInstanceSpec ty = some spec ∧
              (spec.length < (sig.defaultTys.filter Option.isSome).length
                ∨ ∃ p ∈ spec.zip sig.annotatedTys, ∃ a, p.2 = some a ∧
                    ops.isAssignableTo p.1 a = false)) := by
  simp only [checkAssignTarget, hty, himpl, if_true]
  have hcond := cond_and_isEmpty (ops.isNoneTy ty) (sig.defaultTys.filter Option.isSome)
  cases hspec : ops.tupleInstanceSpec ty with
  | none =>
    dsimp only
    by_cases hn : (ops.isNoneTy ty && !(sig.defaultTys.filter Option.isSome).isEmpty) = true
    · rw [if_pos hn]
      exact iff_of_true (by simp) (Or.inl (hcond.mp hn))
    · rw [if_neg hn]
      apply iff_of_false (by simp)
      rintro (h1 | ⟨spec', hsp', _⟩)
      · exact hn (hcond.mpr h1)
      · exact Option.noConfusion hsp'
  | some spec =>
    dsimp only
    by_cases hlen : spec.length < (sig.defaultTys.filter Option.isSome).length
    · rw [if_pos hlen]
      exact iff_of_true (by simp) (Or.inr ⟨spec, rfl, Or.inl hlen⟩)
    · rw [if_neg hlen]
      by_cases hn : (ops.isNoneTy ty && !(sig.defaultTys.filter Option.isSome).isEmpty) = true
      · rw [if_pos hn]
        exact iff_of_true (by simp) (Or.inl (hcond.mp hn))
      · rw [if_neg hn, List.nil_append,
          zipDefaultsCheck_ne_nil_iff ops rng ty spec sig.annotatedTys]
        constructor
        · intro hex
          exact Or.inr ⟨spec, rfl, Or.inr hex⟩
        · rintro (h1 | ⟨spec', hsp', hcase⟩)
          · exact absurd (hcond.mpr h1) hn
          · injection hsp' with hse
            subst hse
            rcases hcase with hlen' | hex
            · exact absurd hlen' hlen
            · exact hex

/-- C5 witness: replacing the default of a parameter annotated `int`
with a `str`-typed tuple element is flagged. -/
theorem c5_function_defaults_amended_witness :
    checkAssignTarget
        { trivOps with
          isAssignableTo := fun a b => a == b,
          tupleInstanceSpec := fun t => match t with
            | .tupleT 0 => some [.strT]
            | _ => none,
          overloadsAndImplementation :=
            fun _ => ([], some ⟨[some .intT], [some .intT]⟩) }
        [] (.attrE 0 (.tupleT 0) (.nameE 1 (.functionLiteral 0) ("foo".toList))
             ("__defaults__".toList)) ≠ []
      ↔ ((({ trivOps with
             isAssignableTo := fun a b => a == b,
             tupleInstanceSpec := fun t => match t with
               | .tupleT 0 => some [.strT]
               | _ => none,
             overloadsAndImplementation :=
               fun _ => ([], some ⟨[some .intT], [some .intT]⟩) } : SemOps).isNoneTy
              (.tupleT 0) = true
            ∧ (⟨[some .intT], [some .intT]⟩ : ImplSig).defaultTys.filter Option.isSome ≠ [])
          ∨ ∃ spec,
              ({ trivOps with
                 isAssignableTo := fun a b => a == b,
                 tupleInstanceSpec := fun t => match t with
                   | .tupleT 0 => some [.strT]
                   | _ => none,
                 overloadsAndImplementation :=
                   fun _ => ([], some ⟨[some .intT], [some .intT]⟩) } : SemOps).tupleInstanceSpec
                (.tupleT 0) = some spec
              ∧ (spec.length
                    < ((⟨[some .intT], [some .intT]⟩ : ImplSig).defaultTys.filter
                        Option.isSome).length
                  ∨ ∃ p ∈ spec.zip (⟨[some .intT], [some .intT]⟩ : ImplSig).annotatedTys,
                      ∃ a, p.2 = some a ∧
                        ({ trivOps with
                           isAssignableTo := fun a b => a == b,
                           tupleInstanceSpec := fun t => match t with
                             | .tupleT 0 => some [.strT]
                             | _ => none,
                           overloadsAndImplementation :=
                             fun _ => ([], some ⟨[some .intT], [some .intT]⟩) } : SemOps).isAssignableTo
                          p.1 a = false)) :=
  c5_function_defaults_amended
    { trivOps with
      isAssignableTo := fun a b => a == b,
      tupleInstanceSpec := fun t => match t with
        | .tupleT 0 => some [.strT]
        | _ => none,
      overloadsAndImplementation :=
        fun _ => ([], some ⟨[some .intT], [some .intT]⟩) }
    [] 0 (.tupleT 0) (.nameE 1 (.functionLiteral 0) ("foo".toList)) 0
    ⟨[some .intT], [some .intT]⟩ rfl rfl

/-- The C5 claim, as stated, on one `fn.__defaults__ = newVal` target:
flagged exactly when existing defaults are replaced by `None`, the
tuple shape is too short, or some aligned element is not assignable
*after literal widening* to its parameter's annotated type. -/
def c5ClaimHolds (ops : SemOps) (members : List (LCStr × Ty)) (rng : Rng)
    (ty : Ty) (value : PExpr) (sig : ImplSig) : Bool :=
  (!((checkAssignTarget ops members
      (.attrE rng ty value ("__defaults__".toList))).isEmpty))
    == ((ops.isNoneTy ty && !(sig.defaultTys.filter Option.isSome).isEmpty)
        || (match ops.tupleInstanceSpec ty with
            | some spec =>
              decide (spec.length < (sig.defaultTys.filter Option.isSome).length)
              || (spec.zip sig.annotatedTys).any (fun p =>
                  match p.2 with
                  | some a => !(ops.isAssignableTo (ops.promoteLiterals p.1) a)
                  | none => false)
            | none => false))

/-- A model with `ty`-like literal widening, a parameter annotated
`Literal[1]` whose default is `Literal[1]`, and a replacement tuple
`(Literal[1],)`. -/
def exOpsC5 : SemOps :=
  { trivOps with
    promoteLiterals := fun t => match t with | .litInt _ => .intT | t => t,
    isAssignableTo := fun a b =>
      a == b || (match a, b with | .litInt _, .intT => true | _, _ => false),
    tupleInstanceSpec := fun t => match t with
      | .tupleT 0 => some [.litInt 1]
      | _ => none,
    overloadsAndImplementation :=
      fun _ => ([], some ⟨[some (.litInt 1)], [some (.litInt 1)]⟩) }

/-- The `fn` expression of the C5 counterexample. -/
def exValueC5 : PExpr := .nameE 1 (.functionLiteral 0) ("foo".toList)

/-- C5 counterexample: the code accepts `Literal[1]` against the
`Literal[1]` annotated type (raw assignability holds), while the claim
widens the element to `int` first, which is not assignable to
`Literal[1]` — so the claim demands a diagnostic the code never
emits. -/
theorem c5_function_defaults_counterexample :
    exValueC5.tyOf = Ty.functionLiteral 0
    ∧ (exOpsC5.overloadsAndImplementation 0).2
        = some ⟨[some (.litInt 1)], [some (.litInt 1)]⟩
    ∧ c5ClaimHolds exOpsC5 [] 0 (.tupleT 0) exValueC5
        ⟨[some (.litInt 1)], [some (.litInt 1)]⟩ = false := by
  refine ⟨rfl, rfl, by decide⟩

/-! ## C3: the `def foo(x: Any) -> Any: ...` scenario -/

/-- The semantic model for the C3 scenario: `foo` is a plain function
(no overloads, an implementation), and both `Any` annot expressions
infer `Type::Dynamic(DynamicType::Any)` (recorded on the nodes). -/
def opsC3 : SemOps :=
  { trivOps with overloadsAndImplementation := fun _ => ([], some ⟨[], []⟩) }

/-- `def foo(x: Any) -> Any: ...` — one parameter annotated `Any`
(span 10), return annotated `Any` (span 20), empty body. -/
def fooDefC3 : FuncDef :=
  ⟨0, .functionLiteral 0,
   [⟨some (.nameE 10 .dynamicAny ("Any".toList)), none⟩],
   some (.nameE 20 .dynamicAny ("Any".toList)),
   []⟩

/-- C3 counterexample: under the default selection the scenario
produces two diagnostics, not exactly one — the return-position `Any`
is flagged as well. -/
theorem c3_any_scenario_counterexample :
    ¬ ((runRequests defaultSelection
        (checkFunctionDefinitionStatement opsC3 fooDefC3)).length = 1) := by
  decide

/-- C3 amended: checking `def foo(x: Any) -> Any: ...` under the
default selection produces exactly two `typing-any-used` diagnostics —
the first at the span of `x`'s annot, the second at the span of the
return annot — each with the rule's default severity (warning) and a
provenance sub-diagnostic saying the rule is enabled by default. -/
theorem c3_any_scenario_amended :
    runRequests defaultSelection
        (checkFunctionDefinitionStatement opsC3 fooDefC3) =
      [⟨("typing-any-used".toList), Severity.warning, 10,
        ("Using `typing.Any` in type annotations can lead to runtime errors.".toList),
        [("rule `typing-any-used` is enabled by default".toList)]⟩,
       ⟨("typing-any-used".toList), Severity.warning, 20,
        ("Using `typing.Any` in type annotations can lead to runtime errors.".toList),
        [("rule `typing-any-used` is enabled by default".toList)]⟩] := by
  decide

end UC
